import Mathlib

/-!
Verification development for the CGC certificate lookup engine
(`cgc_lookup.py`): a shallow embedding of the structured extractor
(`extract_key_values`), the passive fetcher (`fetch_requests`), the
rendered fetcher (`fetch_playwright_direct`), the guided portal flow
(`playwright_verify_flow`) and the orchestrator (`lookup_cert`),
together with theorems settling the frozen claims about them.

External effects (HTTP responses, browser navigation outcomes, HTML
parsing) are supplied by an explicit environment record, so every
definition is an executable function of that environment.
-/

namespace CgcLookup

/-- Python truthiness for an optional string: `a or b` falls through to
`b` when `a` is `None` or the empty string. Mirrors `x.get(..) or y.get(..)`. -/
def pyOrStr : Option String → Option String → Option String
  | some s, b => if s = "" then b else some s
  | none, b => b

/-- Python `x or ""` for an optional string (used for `img.get("alt") or ""`). -/
def pyStrOrEmpty : Option String → String
  | some s => s
  | none => ""

/-- Normalize an optional string by Python truthiness: `some ""` behaves
exactly like `none` wherever the Python code tests `if s:`. -/
def pyStrOpt : Option String → Option String
  | some s => if s = "" then none else some s
  | none => none

/-- Insert with CPython dict semantics: an existing key keeps its position
and gets the new value (last write wins); a new key is appended. -/
def insertLW {α : Type} : List (String × α) → String → α → List (String × α)
  | [], k, v => [(k, v)]
  | (k₀, v₀) :: t, k, v =>
    if k₀ = k then (k₀, v) :: t else (k₀, v₀) :: insertLW t k v

/-- Insert one key/value pair (uncurried form of `insertLW`). -/
def insKV {α : Type} (m : List (String × α)) (kv : String × α) : List (String × α) :=
  insertLW m kv.1 kv.2

/-- Iterate over document fragments, inserting the pairs each fragment
yields into one shared dict, in document order. This is the common shape
of the `details`, `table_fields` and `meta` accumulation loops. -/
def foldPairs {α β : Type} (xs : List β) (pairsOf : β → List (String × α)) :
    List (String × α) :=
  xs.foldl (fun m x => (pairsOf x).foldl insKV m) []

/-- Outcome of `json.loads` on one `application/ld+json` script body:
a JSON object (abstracted to a token), a JSON array of objects, some
other JSON value, or a decode error. -/
inductive LdParse : Type
  | jdict (v : String)
  | jlist (vs : List String)
  | jother
  | malformed
deriving Repr, DecidableEq

/-- One `meta` element: its `property`, `name` and `content` attributes,
each possibly absent. -/
structure MetaTag : Type where
  property : Option String
  name : Option String
  content : Option String
deriving Repr, DecidableEq

/-- One `dl` element: the whitespace-normalized texts of its `dt` and
`dd` children. -/
structure Dl : Type where
  dts : List String
  dds : List String
deriving Repr, DecidableEq

/-- One `img` element: its `src`, `data-src` and `alt` attributes. -/
structure Img : Type where
  src : Option String
  dataSrc : Option String
  alt : Option String
deriving Repr, DecidableEq

/-- A parsed document, holding exactly the features `extract_key_values`
inspects: ld+json script parse outcomes, meta tags, definition lists,
tables (rows of cell texts, `td` and `th` combined), the first `title`,
`h1` and `h2` texts, images, and the full rendered text of the page. -/
structure Doc : Type where
  scripts : List LdParse
  metas : List MetaTag
  dls : List Dl
  tables : List (List (List String))
  title : Option String
  h1 : Option String
  h2 : Option String
  imgs : List Img
  fullText : String
deriving Repr, DecidableEq

/-- A document with no content at all. -/
def emptyDoc : Doc :=
  { scripts := [], metas := [], dls := [], tables := [], title := none,
    h1 := none, h2 := none, imgs := [], fullText := "" }

/-- The heuristic bag of fields produced by `extract_key_values`. Each
field is `none` exactly when the Python dict lacks the corresponding key.
The `notices` field is part of the result vocabulary but `extract_key_values`
never creates it. -/
structure ExtractedData : Type where
  json_ld : Option (List String)
  meta : Option (List (String × Option String))
  details : Option (List (String × String))
  table_fields : Option (List (String × String))
  page_title : Option String
  h1 : Option String
  h2 : Option String
  images : Option (List (String × String))
  notices : Option (List String)
deriving Repr, DecidableEq

/-- Python truthiness of the extraction dict: `bool(data)` is false iff
no key was ever created. -/
def ExtractedData.isEmpty (d : ExtractedData) : Bool :=
  d.json_ld.isNone && d.meta.isNone && d.details.isNone && d.table_fields.isNone &&
  d.page_title.isNone && d.h1.isNone && d.h2.isNone && d.images.isNone &&
  d.notices.isNone

/-- Exception payload type for the exception-explicit variants. -/
abbrev PyExc := String

/-- Outcome of `json.loads` on a script body, with the decode error made
explicit; `extract_key_values` catches it per block. -/
def json_loadsE : LdParse → Except PyExc LdParse
  | .malformed => Except.error "json.JSONDecodeError"
  | s => Except.ok s

/-- One step of the ld+json accumulation loop: try to decode the block; a
dict is appended, a list is extended (creating the `json_ld` key either
way), anything else is ignored, and a decode error is swallowed. -/
def jsonLdStep (acc : Bool × List String) (s : LdParse) : Bool × List String :=
  match json_loadsE s with
  | Except.ok (.jdict v) => (true, acc.2 ++ [v])
  | Except.ok (.jlist vs) => (true, acc.2 ++ vs)
  | Except.ok _ => acc
  | Except.error _ => acc

/-- The social-card property of a meta tag, when it qualifies:
`tag.get("property") or tag.get("name")`, kept only when truthy and
starting with `og:` or `twitter:`. -/
def socialProp (t : MetaTag) : Option String :=
  match pyOrStr t.property t.name with
  | some s =>
    if s ≠ "" ∧ (s.startsWith "og:" ∨ s.startsWith "twitter:") then some s else none
  | none => none

/-- Pairs a meta tag contributes to the `meta` mapping. -/
def metaPairs (t : MetaTag) : List (String × Option String) :=
  match socialProp t with
  | some s => [(s, t.content)]
  | none => []

/-- Pairs one `dl` contributes to `details`: nothing unless both child
lists are nonempty and of equal length; then the zipped pairs whose key
and value are both nonempty. -/
def dlPairs (dl : Dl) : List (String × String) :=
  if dl.dts.length ≠ 0 ∧ dl.dds.length ≠ 0 ∧ dl.dts.length = dl.dds.length then
    (dl.dts.zip dl.dds).filter fun kv => kv.1 ≠ "" && kv.2 ≠ ""
  else []

/-- Pairs one table row contributes to `table_fields`: only a row with
exactly two cells, both nonempty, yields its label/value pair. -/
def rowPairs (row : List String) : List (String × String) :=
  match row with
  | [k, v] => if k ≠ "" && v ≠ "" then [(k, v)] else []
  | _ => []

/-- The image entry for one `img`: `src or data-src` must be truthy and
not an inline `data:` URI; alt text defaults to the empty string. -/
def imgEntry (img : Img) : Option (String × String) :=
  match pyOrStr img.src img.dataSrc with
  | some s =>
    if s ≠ "" ∧ ¬ s.startsWith "data:" then some (s, pyStrOrEmpty img.alt) else none
  | none => none

/-- Shallow embedding of `extract_key_values`: the fixed sequence of
independent heuristics, each creating its dict key only under the same
conditions as the Python code. -/
def extract_key_values (doc : Doc) : ExtractedData :=
  let jl := doc.scripts.foldl jsonLdStep (false, [])
  let metaAssoc := foldPairs doc.metas metaPairs
  let detailsAssoc := foldPairs doc.dls dlPairs
  let tableAssoc := foldPairs doc.tables (fun tb => tb.flatMap rowPairs)
  let imgList := doc.imgs.filterMap imgEntry
  { json_ld := if jl.1 then some jl.2 else none
    meta := if metaAssoc.isEmpty then none else some metaAssoc
    details := if detailsAssoc.isEmpty then none else some detailsAssoc
    table_fields := if tableAssoc.isEmpty then none else some tableAssoc
    page_title := doc.title
    h1 := doc.h1
    h2 := doc.h2
    images := if imgList.isEmpty then none else some imgList
    notices := none }

/-- Outcome of one `requests.get` call: an HTTP response with status and
body, or a raised `requests.RequestException`. -/
inductive HttpOutcome : Type
  | response (status : Nat) (body : String)
  | netError
deriving Repr, DecidableEq

/-- Outcome of the rendered navigation inside `fetch_playwright_direct`:
the captured page content, or an exception raised by the browser calls. -/
inductive RenderedOutcome : Type
  | page (html : String)
  | raised
deriving Repr, DecidableEq

/-- Outcome of the guided portal flow body inside `playwright_verify_flow`:
a detail page was reached (final URL and content captured), every category
tile was exhausted without a match, or the flow raised mid-way. -/
inductive VerifyOutcome : Type
  | found (finalUrl html : String)
  | exhausted
  | raised
deriving Repr, DecidableEq

/-- The external world one lookup call runs against: whether Playwright
imported, whether browser-session acquisition (launch, context and page
creation — performed before the `try` blocks in both Playwright helpers)
raises, the HTTP response per URL, the HTML parser, the rendered
navigation outcome per URL, and the guided portal flow outcome. -/
structure Env : Type where
  playwrightAvailable : Bool
  launchRaises : Bool
  http : String → HttpOutcome
  parse : String → Doc
  renderedNav : String → RenderedOutcome
  verify : VerifyOutcome

/-- Shallow embedding of `fetch_requests`: body returned only on status
200 with nonempty text; a transport exception is caught and folded into
`None`. -/
def fetch_requests (o : HttpOutcome) : Option String :=
  match o with
  | .response status body => if status = 200 ∧ body ≠ "" then some body else none
  | .netError => none

/-- Shallow embedding of `playwright_verify_flow`: `(None, None)` when
Playwright is unavailable, the final URL and content when a detail page
was reached, and `(None, None)` when the categories were exhausted or the
flow raised (the exception is caught at top level, the session closed). -/
def playwright_verify_flow (env : Env) : Option String × Option String :=
  if env.playwrightAvailable then
    match env.verify with
    | .found finalUrl html => (some finalUrl, some html)
    | .exhausted => (none, none)
    | .raised => (none, none)
  else (none, none)

/-- Shallow embedding of `fetch_playwright_direct`: `None` when Playwright
is unavailable, the captured content on success, and `None` when the
navigation raised (caught; the session is closed in the `finally`). -/
def fetch_playwright_direct (env : Env) (url : String) : Option String :=
  if env.playwrightAvailable then
    match env.renderedNav url with
    | .page html => some html
    | .raised => none
  else none

/-- The four direct URL templates, each split at its certificate-number
placeholder into a prefix and a suffix. -/
def DIRECT_URL_PATTERNS : List (String × String) :=
  [ ("https://www.cgccomics.com/certlookup/", "/"),
    ("https://www.cgccards.com/certlookup/", "/"),
    ("https://www.cgcvideogames.com/cert-lookup?cert=", ""),
    ("https://www.cgchomevideo.com/en-US/cert-lookup?cert=", "") ]

/-- `pattern.format(cert=cert)` for one template. -/
def formatUrl (cert : String) (p : String × String) : String :=
  p.1 ++ cert ++ p.2

/-- The ordered direct-URL candidates for one certificate number. -/
def candidateUrls (cert : String) : List String :=
  DIRECT_URL_PATTERNS.map (formatUrl cert)

/-- The fixed message placed in the `error` field when every strategy is
exhausted. -/
def errMsg : String :=
  "Could not retrieve or parse details for this certification."

/-- One attempt record, with `url`, `data_found` and `data` mirroring the
optional presence of the corresponding dict keys in the Python record. -/
structure Attempt : Type where
  via : String
  url : Option String
  status : String
  data_found : Option Bool
  data : Option ExtractedData
deriving Repr, DecidableEq

/-- The lookup result: certificate, append-only attempt log, and the
optional `best_url`, `data` and `error` keys. -/
structure LookupResult : Type where
  cert : String
  attempts : List Attempt
  best_url : Option String
  data : Option ExtractedData
  error : Option String
deriving Repr, DecidableEq

/-- The result value `lookup_cert` starts from. -/
def initResult (cert : String) : LookupResult :=
  { cert := cert, attempts := [], best_url := none, data := none, error := none }

/-- The attempt record of a passive fetch that returned a body, holding
the extraction result and whether it is nonempty. -/
def reqOkAttempt (url : String) (d : ExtractedData) : Attempt :=
  { via := "direct_requests", url := some url, status := "ok",
    data_found := some (!d.isEmpty), data := some d }

/-- The attempt record of a blocked passive fetch (no `data_found` key). -/
def blockedReqAttempt (u : String) : Attempt :=
  { via := "direct_requests", url := some u, status := "blocked_or_empty",
    data_found := none, data := none }

/-- The attempt record of a rendered fallback that captured content. -/
def pwOkAttempt (url : String) (d : ExtractedData) : Attempt :=
  { via := "direct_playwright", url := some url, status := "ok",
    data_found := some (!d.isEmpty), data := some d }

/-- The attempt record of a blocked rendered fallback. -/
def blockedPwAttempt (u : String) : Attempt :=
  { via := "direct_playwright", url := some u, status := "blocked_or_empty",
    data_found := some false, data := none }

/-- The attempt record of a verify-portal flow that captured content. -/
def verifyOkAttempt (finalUrl : Option String) (d : ExtractedData) : Attempt :=
  { via := "verify_portal", url := finalUrl, status := "ok",
    data_found := some (!d.isEmpty), data := some d }

/-- The attempt record of a failed verify-portal flow. -/
def verifyFailedAttempt (finalUrl : Option String) : Attempt :=
  { via := "verify_portal", url := finalUrl, status := "failed",
    data_found := some false, data := none }

/-- Shallow embedding of the direct-URL loop in `lookup_cert` (lines
266-301): for each candidate URL, try `fetch_requests` first; on a truthy
body extract, record one attempt, and return on nonempty data; otherwise
record the blocked attempt and fall through to `fetch_playwright_direct`
with a second attempt record; after the last candidate set `error`. -/
def directLoop (env : Env) (urls : List String) (acc : LookupResult) : LookupResult :=
  match urls with
  | [] => { acc with error := some errMsg }
  | url :: rest =>
    match fetch_requests (env.http url) with
    | some html =>
      let d := extract_key_values (env.parse html)
      let acc1 := { acc with attempts := acc.attempts ++ [reqOkAttempt url d] }
      if !d.isEmpty then { acc1 with best_url := some url, data := some d }
      else directLoop env rest acc1
    | none =>
      let acc1 := { acc with attempts := acc.attempts ++ [blockedReqAttempt url] }
      match pyStrOpt (fetch_playwright_direct env url) with
      | some htmlPw =>
        let d := extract_key_values (env.parse htmlPw)
        let acc2 := { acc1 with attempts := acc1.attempts ++ [pwOkAttempt url d] }
        if !d.isEmpty then { acc2 with best_url := some url, data := some d }
        else directLoop env rest acc2
      | none =>
        directLoop env rest { acc1 with attempts := acc1.attempts ++ [blockedPwAttempt url] }

/-- Shallow embedding of `lookup_cert`: when Playwright is available, run
the verify-portal flow first and record its attempt (returning on nonempty
data); then fall through to the direct-URL loop. -/
def lookup_cert (env : Env) (cert : String) : LookupResult :=
  let r0 := initResult cert
  if env.playwrightAvailable then
    let finalUrl := (playwright_verify_flow env).1
    match pyStrOpt (playwright_verify_flow env).2 with
    | some html =>
      let d := extract_key_values (env.parse html)
      let r1 := { r0 with attempts := r0.attempts ++ [verifyOkAttempt finalUrl d] }
      if !d.isEmpty then { r1 with best_url := finalUrl, data := some d }
      else directLoop env (candidateUrls cert) r1
    | none =>
      directLoop env (candidateUrls cert)
        { r0 with attempts := r0.attempts ++ [verifyFailedAttempt finalUrl] }
  else directLoop env (candidateUrls cert) r0

/-- Raw `requests.get`, with the transport exception explicit. -/
def requests_getE (env : Env) (url : String) : Except PyExc (Nat × String) :=
  match env.http url with
  | .response status body => Except.ok (status, body)
  | .netError => Except.error "requests.RequestException"

/-- Exception-explicit `fetch_requests`: the `try` body around
`requests.get`, with the `except requests.RequestException` arm returning
`None` instead of propagating. -/
def fetch_requestsE (env : Env) (url : String) : Except PyExc (Option String) :=
  match requests_getE env url with
  | Except.ok (status, body) =>
    Except.ok (if status = 200 ∧ body ≠ "" then some body else none)
  | Except.error _ => Except.ok none

/-- Raw guided-portal navigation body, with a mid-flow browser exception
explicit. -/
def verify_navE (env : Env) : Except PyExc (Option String × Option String) :=
  match env.verify with
  | .found finalUrl html => Except.ok (some finalUrl, some html)
  | .exhausted => Except.ok (none, none)
  | .raised => Except.error "playwright.Error"

/-- Exception-explicit `playwright_verify_flow`: browser-session
acquisition (`chromium.launch`, `new_context`, `new_page`, lines 119-129)
happens before the `try`, so an acquisition failure propagates uncaught;
only a mid-flow failure is swallowed by the top-level `except Exception`
arm, after which the function falls through to `(None, None)`. -/
def playwright_verify_flowE (env : Env) : Except PyExc (Option String × Option String) :=
  if env.playwrightAvailable then
    if env.launchRaises then Except.error "playwright.Error"
    else
      match verify_navE env with
      | Except.ok r => Except.ok r
      | Except.error _ => Except.ok (none, none)
  else Except.ok (none, none)

/-- Raw rendered navigation body, with a browser exception explicit. -/
def rendered_navE (env : Env) (url : String) : Except PyExc String :=
  match env.renderedNav url with
  | .page html => Except.ok html
  | .raised => Except.error "playwright.Error"

/-- Exception-explicit `fetch_playwright_direct`: browser-session
acquisition (lines 214-224) happens before the `try`, so an acquisition
failure propagates uncaught; only a navigation failure is caught by the
`except Exception` arm, which returns `None` instead of propagating. -/
def fetch_playwright_directE (env : Env) (url : String) : Except PyExc (Option String) :=
  if env.playwrightAvailable then
    if env.launchRaises then Except.error "playwright.Error"
    else
      match rendered_navE env url with
      | Except.ok html => Except.ok (some html)
      | Except.error _ => Except.ok none
  else Except.ok none

/-- Exception-explicit direct-URL loop: `lookup_cert` installs no handler
of its own, so an error escaping a fetch helper would propagate through
the `Except.error` arms here. -/
def directLoopE (env : Env) (urls : List String) (acc : LookupResult) :
    Except PyExc LookupResult :=
  match urls with
  | [] => Except.ok { acc with error := some errMsg }
  | url :: rest =>
    match fetch_requestsE env url with
    | Except.error e => Except.error e
    | Except.ok htmlOpt =>
      match htmlOpt with
      | some html =>
        let d := extract_key_values (env.parse html)
        let acc1 := { acc with attempts := acc.attempts ++ [reqOkAttempt url d] }
        if !d.isEmpty then Except.ok { acc1 with best_url := some url, data := some d }
        else directLoopE env rest acc1
      | none =>
        let acc1 := { acc with attempts := acc.attempts ++ [blockedReqAttempt url] }
        match fetch_playwright_directE env url with
        | Except.error e => Except.error e
        | Except.ok htmlPwOpt =>
          match pyStrOpt htmlPwOpt with
          | some htmlPw =>
            let d := extract_key_values (env.parse htmlPw)
            let acc2 := { acc1 with attempts := acc1.attempts ++ [pwOkAttempt url d] }
            if !d.isEmpty then Except.ok { acc2 with best_url := some url, data := some d }
            else directLoopE env rest acc2
          | none =>
            directLoopE env rest { acc1 with attempts := acc1.attempts ++ [blockedPwAttempt url] }

/-- Exception-explicit `lookup_cert`: any error escaping the components
would surface as `Except.error` here, since the orchestrator has no
handler. -/
def lookup_certE (env : Env) (cert : String) : Except PyExc LookupResult :=
  let r0 := initResult cert
  if env.playwrightAvailable then
    match playwright_verify_flowE env with
    | Except.error e => Except.error e
    | Except.ok flowRes =>
      let finalUrl := flowRes.1
      match pyStrOpt flowRes.2 with
      | some html =>
        let d := extract_key_values (env.parse html)
        let r1 := { r0 with attempts := r0.attempts ++ [verifyOkAttempt finalUrl d] }
        if !d.isEmpty then Except.ok { r1 with best_url := finalUrl, data := some d }
        else directLoopE env (candidateUrls cert) r1
      | none =>
        directLoopE env (candidateUrls cert)
          { r0 with attempts := r0.attempts ++ [verifyFailedAttempt finalUrl] }
  else directLoopE env (candidateUrls cert) r0

/-- The outer navigation bound used by every Playwright call. -/
def TIMEOUT_MS : Nat := 30000

/-- The verify-portal entry URL. -/
def VERIFY_PORTAL : String := "https://www.cgcgrading.com/verify"

/-- Observable browser-session actions performed by the Playwright-based
fetchers, at the granularity the resource and readiness claims need. -/
inductive BrowserAction : Type
  | launch
  | goto (url : String) (waitUntil : String) (timeoutMs : Nat)
  | waitForTimeout (ms : Nat)
  | captureContent
  | pollTitle (intervalMs : Nat)
  | waitForSelector (selector : String) (timeoutMs : Nat)
  | close
deriving Repr, DecidableEq

/-- The browser-action trace of `fetch_playwright_direct`: nothing when
Playwright is unavailable; otherwise launch, navigate with the
`domcontentloaded` milestone, and on success one fixed 600 ms settle wait
and the content capture; the `finally` closes the session on both paths. -/
def fetch_playwright_direct_trace (avail : Bool) (url : String) (navRaises : Bool) :
    List BrowserAction :=
  if avail then
    if navRaises then
      [ .launch, .goto url "domcontentloaded" TIMEOUT_MS, .close ]
    else
      [ .launch, .goto url "domcontentloaded" TIMEOUT_MS,
        .waitForTimeout 600, .captureContent, .close ]
  else []

/-- The browser-action trace skeleton of `playwright_verify_flow`: nothing
when Playwright is unavailable; otherwise launch and portal navigation,
then on a reached detail page an 800 ms settle wait, the capture, the
explicit close before the early return and the `finally` close again; on
exhaustion or a caught exception the `finally` close alone. -/
def playwright_verify_flow_trace (avail : Bool) (out : VerifyOutcome) :
    List BrowserAction :=
  if avail then
    [BrowserAction.launch, BrowserAction.goto VERIFY_PORTAL "domcontentloaded" TIMEOUT_MS] ++
    (match out with
     | .found _ _ => [BrowserAction.waitForTimeout 800, BrowserAction.captureContent,
                      BrowserAction.close, BrowserAction.close]
     | .exhausted => [BrowserAction.close]
     | .raised => [BrowserAction.close])
  else []

/-- A trace releases its session when every launch is matched by a close
and the last action before returning control is a close. -/
def sessionReleased (t : List BrowserAction) : Bool :=
  (t.count BrowserAction.launch ≤ t.count BrowserAction.close) &&
  (t.getLast? = some BrowserAction.close || t.isEmpty)

/-- Check that the first list begins with the second. -/
def charsBeginWith : List Char → List Char → Bool
  | _, [] => true
  | [], _ :: _ => false
  | a :: as, b :: bs => a = b && charsBeginWith as bs

/-- Check that the needle occurs contiguously inside the haystack. -/
def charsContain (needle : List Char) : List Char → Bool
  | [] => needle.isEmpty
  | b :: bs => charsBeginWith (b :: bs) needle || charsContain needle bs

/-- Case-insensitive substring test on strings. -/
def containsCI (needle hay : String) : Bool :=
  charsContain (needle.data.map Char.toLower) (hay.data.map Char.toLower)

/-- Spec-side reading of a non-empty extraction: at least one field is
present with non-empty content (a non-empty list or mapping, a non-empty
string). Stated from the spec wording to compare with the code's
`bool(data)` test. -/
def hasNonemptyFieldSpec (d : ExtractedData) : Bool :=
  (match d.json_ld with | some l => !l.isEmpty | none => false) ||
  (match d.meta with | some m => !m.isEmpty | none => false) ||
  (match d.details with | some m => !m.isEmpty | none => false) ||
  (match d.table_fields with | some m => !m.isEmpty | none => false) ||
  (match d.page_title with | some s => s ≠ "" | none => false) ||
  (match d.h1 with | some s => s ≠ "" | none => false) ||
  (match d.h2 with | some s => s ≠ "" | none => false) ||
  (match d.images with | some l => !l.isEmpty | none => false) ||
  (match d.notices with | some l => !l.isEmpty | none => false)

/-- Whether a script block parsed to a JSON object or array, the condition
under which the `json_ld` key is created. -/
def isJsonBlock : LdParse → Bool
  | .jdict _ => true
  | .jlist _ => true
  | _ => false

/-- The strategy/URL key of an attempt record, used to compare the attempt
log against the fixed strategy plan. -/
def attemptKey (a : Attempt) : String × Option String :=
  (a.via, a.url)

/-- The fixed per-candidate plan of the direct-URL loop: passive fetch
first, rendered fallback second, in candidate order. -/
def directPlan (urls : List String) : List (String × Option String) :=
  urls.flatMap fun u => [("direct_requests", some u), ("direct_playwright", some u)]

/-- The full fixed strategy plan for one environment: the guided portal
first when Playwright is available, then the direct candidates. -/
def attemptPlan (env : Env) (cert : String) : List (String × Option String) :=
  (if env.playwrightAvailable then
    [("verify_portal", (playwright_verify_flow env).1)]
  else []) ++ directPlan (candidateUrls cert)

/-- No attempt in the list found data. -/
def noSuccess (l : List Attempt) : Prop :=
  ∀ a ∈ l, a.data_found ≠ some true

/-- Environment where Playwright is unavailable and every HTTP response is
a 200 with an empty body. -/
def emptyEnv : Env :=
  { playwrightAvailable := false
    launchRaises := false
    http := fun _ => HttpOutcome.response 200 ""
    parse := fun _ => emptyDoc
    renderedNav := fun _ => RenderedOutcome.raised
    verify := VerifyOutcome.exhausted }

/-- Environment where Playwright is unavailable and every HTTP response is
a 200 with a body that parses to a document with no extractable content. -/
def blankPageEnv : Env :=
  { playwrightAvailable := false
    launchRaises := false
    http := fun _ => HttpOutcome.response 200 "<html></html>"
    parse := fun _ => emptyDoc
    renderedNav := fun _ => RenderedOutcome.raised
    verify := VerifyOutcome.exhausted }

/-- A document whose only feature is a rendered "not found" message in its
full text. -/
def notFoundDoc : Doc :=
  { emptyDoc with fullText := "CGC Certification Not Found" }

/-- A document whose only feature is a `title` element with empty text. -/
def emptyTitleDoc : Doc :=
  { emptyDoc with title := some "" }

lemma mem_of_getLastOpt {α : Type} {l : List α} {a : α} (h : l.getLast? = some a) :
    a ∈ l := by
  have h2 := List.dropLast_append_getLast? a h
  rw [← h2]
  exact List.mem_append_right _ (List.mem_singleton_self a)

lemma insertLW_ne_nil {α : Type} (m : List (String × α)) (k : String) (v : α) :
    insertLW m k v ≠ [] := by
  cases m with
  | nil => simp [insertLW]
  | cons h t =>
    simp only [insertLW]
    split <;> simp

lemma insKV_ne_nil {α : Type} (m : List (String × α)) (kv : String × α) :
    insKV m kv ≠ [] :=
  insertLW_ne_nil m kv.1 kv.2

lemma foldl_insKV_eq_nil_iff {α : Type} :
    ∀ (ps : List (String × α)) (m : List (String × α)),
      (ps.foldl insKV m = []) ↔ (m = [] ∧ ps = []) := by
  intro ps
  induction ps with
  | nil => simp
  | cons kv t ih =>
    intro m
    simp only [List.foldl_cons, ih]
    constructor
    · rintro ⟨h1, _⟩
      exact absurd h1 (insKV_ne_nil m kv)
    · rintro ⟨_, h2⟩
      exact absurd h2 (List.cons_ne_nil kv t)

lemma foldl_pairs_eq_nil_iff {α β : Type} (f : β → List (String × α)) :
    ∀ (xs : List β) (m : List (String × α)),
      (xs.foldl (fun m x => (f x).foldl insKV m) m = []) ↔
        (m = [] ∧ ∀ x ∈ xs, f x = []) := by
  intro xs
  induction xs with
  | nil => simp
  | cons x t ih =>
    intro m
    simp only [List.foldl_cons, ih, foldl_insKV_eq_nil_iff, List.mem_cons]
    constructor
    · rintro ⟨⟨hm, hx⟩, ht⟩
      exact ⟨hm, fun y hy => hy.elim (fun e => e ▸ hx) (ht y)⟩
    · rintro ⟨hm, hall⟩
      exact ⟨⟨hm, hall x (Or.inl rfl)⟩, fun y hy => hall y (Or.inr hy)⟩

lemma foldPairs_eq_nil_iff {α β : Type} (xs : List β) (f : β → List (String × α)) :
    (foldPairs xs f = []) ↔ ∀ x ∈ xs, f x = [] := by
  unfold foldPairs
  rw [foldl_pairs_eq_nil_iff]
  simp

lemma foldPairs_middle_nil {α β : Type} (f : β → List (String × α))
    (pre post : List β) (mid : β) (h : f mid = []) :
    foldPairs (pre ++ mid :: post) f = foldPairs (pre ++ post) f := by
  unfold foldPairs
  rw [List.foldl_append, List.foldl_append, List.foldl_cons, h]
  rfl

lemma foldPairs_middle_congr {α β : Type} (f : β → List (String × α))
    (pre post : List β) (mid1 mid2 : β) (h : f mid1 = f mid2) :
    foldPairs (pre ++ mid1 :: post) f = foldPairs (pre ++ mid2 :: post) f := by
  unfold foldPairs
  rw [List.foldl_append, List.foldl_append, List.foldl_cons, List.foldl_cons, h]

lemma jsonFold_fst :
    ∀ (scripts : List LdParse) (p : Bool) (items : List String),
      (scripts.foldl jsonLdStep (p, items)).1 = (p || scripts.any isJsonBlock) := by
  intro scripts
  induction scripts with
  | nil => simp
  | cons s t ih =>
    intro p items
    cases s <;> simp [jsonLdStep, json_loadsE, isJsonBlock, ih]

lemma rowPairs_eq_nil_of_length_ne_two (row : List String) (h : row.length ≠ 2) :
    rowPairs row = [] := by
  match row with
  | [] => rfl
  | [_] => rfl
  | [_, _] => exact absurd rfl h
  | _ :: _ :: _ :: _ => rfl

lemma dlPairs_eq_nil_of_length_ne (dl : Dl) (h : dl.dts.length ≠ dl.dds.length) :
    dlPairs dl = [] := by
  unfold dlPairs
  rw [if_neg]
  rintro ⟨_, _, h3⟩
  exact h h3

lemma directPlan_cons (url : String) (rest : List String) :
    directPlan (url :: rest) =
      ("direct_requests", some url) :: ("direct_playwright", some url) :: directPlan rest := by
  simp [directPlan]

lemma directLoop_attempts_sublist (env : Env) :
    ∀ (urls : List String) (acc : LookupResult),
      ∃ t, (directLoop env urls acc).attempts = acc.attempts ++ t ∧
        List.Sublist (t.map attemptKey) (directPlan urls) := by
  intro urls
  induction urls with
  | nil =>
    intro acc
    exact ⟨[], by simp [directLoop], by simp [directPlan]⟩
  | cons url rest ih =>
    intro acc
    rw [directPlan_cons]
    simp only [directLoop]
    cases hf : fetch_requests (env.http url) with
    | some html =>
      simp only
      split
      · refine ⟨[reqOkAttempt url (extract_key_values (env.parse html))], rfl, ?_⟩
        simp only [List.map_cons, List.map_nil, attemptKey, reqOkAttempt]
        exact List.Sublist.cons₂ _ (List.nil_sublist _)
      · obtain ⟨t, ht, hs⟩ := ih { acc with
          attempts := acc.attempts ++ [reqOkAttempt url (extract_key_values (env.parse html))] }
        refine ⟨reqOkAttempt url (extract_key_values (env.parse html)) :: t, ?_, ?_⟩
        · rw [ht]; simp
        · simp only [List.map_cons, attemptKey, reqOkAttempt]
          exact List.Sublist.cons₂ _ (List.Sublist.cons _ hs)
    | none =>
      simp only
      cases hp : pyStrOpt (fetch_playwright_direct env url) with
      | some htmlPw =>
        simp only
        split
        · refine ⟨[blockedReqAttempt url, pwOkAttempt url (extract_key_values (env.parse htmlPw))],
            by simp, ?_⟩
          simp only [List.map_cons, List.map_nil, attemptKey, blockedReqAttempt, pwOkAttempt]
          exact List.Sublist.cons₂ _ (List.Sublist.cons₂ _ (List.nil_sublist _))
        · obtain ⟨t, ht, hs⟩ := ih { acc with
            attempts := (acc.attempts ++ [blockedReqAttempt url]) ++
              [pwOkAttempt url (extract_key_values (env.parse htmlPw))] }
          refine ⟨blockedReqAttempt url ::
            pwOkAttempt url (extract_key_values (env.parse htmlPw)) :: t, ?_, ?_⟩
          · rw [ht]; simp
          · simp only [List.map_cons, attemptKey, blockedReqAttempt, pwOkAttempt]
            exact List.Sublist.cons₂ _ (List.Sublist.cons₂ _ hs)
      | none =>
        obtain ⟨t, ht, hs⟩ := ih { acc with
          attempts := (acc.attempts ++ [blockedReqAttempt url]) ++ [blockedPwAttempt url] }
        refine ⟨blockedReqAttempt url :: blockedPwAttempt url :: t, ?_, ?_⟩
        · rw [ht]; simp
        · simp only [List.map_cons, attemptKey, blockedReqAttempt, blockedPwAttempt]
          exact List.Sublist.cons₂ _ (List.Sublist.cons₂ _ hs)

lemma directLoop_exclusive (env : Env) :
    ∀ (urls : List String) (acc : LookupResult), acc.data = none → acc.error = none →
      ((directLoop env urls acc).data.isSome ∧ (directLoop env urls acc).error = none) ∨
      ((directLoop env urls acc).data = none ∧ (directLoop env urls acc).error.isSome) := by
  intro urls
  induction urls with
  | nil =>
    intro acc hd he
    exact Or.inr ⟨hd, by simp [directLoop]⟩
  | cons url rest ih =>
    intro acc hd he
    simp only [directLoop]
    cases hf : fetch_requests (env.http url) with
    | some html =>
      simp only
      split
      · exact Or.inl ⟨rfl, he⟩
      · exact ih _ hd he
    | none =>
      simp only
      cases hp : pyStrOpt (fetch_playwright_direct env url) with
      | some htmlPw =>
        simp only
        split
        · exact Or.inl ⟨rfl, he⟩
        · exact ih _ hd he
      | none => exact ih _ hd he

lemma directLoop_shape (env : Env) :
    ∀ (urls : List String) (acc : LookupResult), acc.data = none →
      noSuccess acc.attempts →
      noSuccess (directLoop env urls acc).attempts.dropLast ∧
      ((directLoop env urls acc).data.isSome ↔
        ∃ a, (directLoop env urls acc).attempts.getLast? = some a ∧
          a.data_found = some true) := by
  intro urls
  induction urls with
  | nil =>
    intro acc hd hn
    simp only [directLoop]
    constructor
    · exact fun a ha => hn a (List.dropLast_sublist _ |>.mem ha)
    · simp only [hd, Option.isSome_none, Bool.false_eq_true, false_iff]
      rintro ⟨a, ha, hfound⟩
      exact hn a (mem_of_getLastOpt ha) hfound
  | cons url rest ih =>
    intro acc hd hn
    simp only [directLoop]
    cases hf : fetch_requests (env.http url) with
    | some html =>
      simp only
      split
      · rename_i hcond
        constructor
        · simp only [List.dropLast_concat]
          exact hn
        · simp only [Option.isSome_some, true_iff, List.getLast?_concat]
          exact ⟨_, rfl, by simp [reqOkAttempt, hcond]⟩
      · rename_i hcond
        apply ih
        · exact hd
        · intro a ha
          rcases List.mem_append.mp ha with h1 | h1
          · exact hn a h1
          · simp only [List.mem_singleton] at h1
            subst h1
            simp only [reqOkAttempt, ne_eq, Option.some.injEq]
            intro hq
            exact hcond (by rw [hq])
    | none =>
      simp only
      have hblocked : ∀ a ∈ acc.attempts ++ [blockedReqAttempt url],
          a.data_found ≠ some true := by
        intro a ha
        rcases List.mem_append.mp ha with h1 | h1
        · exact hn a h1
        · simp only [List.mem_singleton] at h1
          subst h1
          simp [blockedReqAttempt]
      cases hp : pyStrOpt (fetch_playwright_direct env url) with
      | some htmlPw =>
        simp only
        split
        · rename_i hcond
          constructor
          · simp only [List.dropLast_concat]
            exact hblocked
          · simp only [Option.isSome_some, true_iff, List.getLast?_concat]
            exact ⟨_, rfl, by simp [pwOkAttempt, hcond]⟩
        · rename_i hcond
          apply ih
          · exact hd
          · intro a ha
            rcases List.mem_append.mp ha with h1 | h1
            · exact hblocked a h1
            · simp only [List.mem_singleton] at h1
              subst h1
              simp only [pwOkAttempt, ne_eq, Option.some.injEq]
              intro hq
              exact hcond (by rw [hq])
      | none =>
        apply ih
        · exact hd
        · intro a ha
          rcases List.mem_append.mp ha with h1 | h1
          · exact hblocked a h1
          · simp only [List.mem_singleton] at h1
            subst h1
            simp [blockedPwAttempt]

lemma directLoop_pw_only_after_miss (env : Env) :
    ∀ (urls : List String) (acc : LookupResult),
      (∀ a ∈ acc.attempts, a.via = "direct_playwright" →
        ∃ u, a.url = some u ∧ fetch_requests (env.http u) = none) →
      ∀ a ∈ (directLoop env urls acc).attempts, a.via = "direct_playwright" →
        ∃ u, a.url = some u ∧ fetch_requests (env.http u) = none := by
  intro urls
  induction urls with
  | nil =>
    intro acc hacc
    simpa [directLoop] using hacc
  | cons url rest ih =>
    intro acc hacc
    simp only [directLoop]
    cases hf : fetch_requests (env.http url) with
    | some html =>
      simp only
      have hext : ∀ a ∈ acc.attempts ++ [reqOkAttempt url (extract_key_values (env.parse html))],
          a.via = "direct_playwright" →
          ∃ u, a.url = some u ∧ fetch_requests (env.http u) = none := by
        intro a ha
        rcases List.mem_append.mp ha with h1 | h1
        · exact hacc a h1
        · simp only [List.mem_singleton] at h1
          subst h1
          simp [reqOkAttempt]
      split
      · exact hext
      · exact ih _ hext
    | none =>
      simp only
      have hext1 : ∀ a ∈ acc.attempts ++ [blockedReqAttempt url],
          a.via = "direct_playwright" →
          ∃ u, a.url = some u ∧ fetch_requests (env.http u) = none := by
        intro a ha
        rcases List.mem_append.mp ha with h1 | h1
        · exact hacc a h1
        · simp only [List.mem_singleton] at h1
          subst h1
          simp [blockedReqAttempt]
      cases hp : pyStrOpt (fetch_playwright_direct env url) with
      | some htmlPw =>
        simp only
        have hext2 : ∀ a ∈ (acc.attempts ++ [blockedReqAttempt url]) ++
            [pwOkAttempt url (extract_key_values (env.parse htmlPw))],
            a.via = "direct_playwright" →
            ∃ u, a.url = some u ∧ fetch_requests (env.http u) = none := by
          intro a ha
          rcases List.mem_append.mp ha with h1 | h1
          · exact hext1 a h1
          · simp only [List.mem_singleton] at h1
            subst h1
            exact fun _ => ⟨url, rfl, hf⟩
        split
        · exact hext2
        · exact ih _ hext2
      | none =>
        apply ih
        intro a ha
        rcases List.mem_append.mp ha with h1 | h1
        · exact hext1 a h1
        · simp only [List.mem_singleton] at h1
          subst h1
          exact fun _ => ⟨url, rfl, hf⟩

lemma directLoop_all_blocked (env : Env) (h1 : env.playwrightAvailable = false) :
    ∀ (urls : List String) (acc : LookupResult),
      (∀ u ∈ urls, fetch_requests (env.http u) = none) →
      directLoop env urls acc =
        { acc with
          attempts := acc.attempts ++
            urls.flatMap (fun u => [blockedReqAttempt u, blockedPwAttempt u]),
          error := some errMsg } := by
  intro urls
  induction urls with
  | nil =>
    intro acc _
    simp [directLoop]
  | cons url rest ih =>
    intro acc hall
    have hf : fetch_requests (env.http url) = none := hall url (List.mem_cons_self url rest)
    have hpw : fetch_playwright_direct env url = none := by
      simp [fetch_playwright_direct, h1]
    simp only [directLoop, hf, hpw, pyStrOpt]
    rw [ih _ (fun u hu => hall u (List.mem_cons_of_mem url hu))]
    simp [List.append_assoc]

lemma fetch_requestsE_eq (env : Env) (url : String) :
    fetch_requestsE env url = Except.ok (fetch_requests (env.http url)) := by
  cases h : env.http url <;>
    simp [fetch_requestsE, requests_getE, fetch_requests, h]

lemma playwright_verify_flowE_eq (env : Env)
    (h : env.playwrightAvailable = false ∨ env.launchRaises = false) :
    playwright_verify_flowE env = Except.ok (playwright_verify_flow env) := by
  cases ha : env.playwrightAvailable with
  | false => simp [playwright_verify_flowE, playwright_verify_flow, ha]
  | true =>
    have hl : env.launchRaises = false := by
      rcases h with h | h
      · rw [ha] at h; cases h
      · exact h
    cases hv : env.verify <;>
      simp [playwright_verify_flowE, playwright_verify_flow, verify_navE, ha, hl, hv]

lemma fetch_playwright_directE_eq (env : Env) (url : String)
    (h : env.playwrightAvailable = false ∨ env.launchRaises = false) :
    fetch_playwright_directE env url = Except.ok (fetch_playwright_direct env url) := by
  cases ha : env.playwrightAvailable with
  | false => simp [fetch_playwright_directE, fetch_playwright_direct, ha]
  | true =>
    have hl : env.launchRaises = false := by
      rcases h with h | h
      · rw [ha] at h; cases h
      · exact h
    cases hr : env.renderedNav url <;>
      simp [fetch_playwright_directE, fetch_playwright_direct, rendered_navE, ha, hl, hr]

lemma directLoopE_eq (env : Env)
    (h : env.playwrightAvailable = false ∨ env.launchRaises = false) :
    ∀ (urls : List String) (acc : LookupResult),
      directLoopE env urls acc = Except.ok (directLoop env urls acc) := by
  intro urls
  induction urls with
  | nil => intro acc; rfl
  | cons url rest ih =>
    intro acc
    simp only [directLoopE, directLoop, fetch_requestsE_eq, fetch_playwright_directE_eq env _ h]
    cases hf : fetch_requests (env.http url) with
    | some html =>
      simp only
      split
      · rfl
      · exact ih _
    | none =>
      simp only
      cases hp : pyStrOpt (fetch_playwright_direct env url) with
      | some htmlPw =>
        simp only
        split
        · rfl
        · exact ih _
      | none => exact ih _

/-- C1: for every identifier and environment, once `lookup_cert` completes
exactly one of the `data` field and the `error` field is present — never
both and never neither. -/
theorem lookup_data_error_exclusive (env : Env) (cert : String) :
    ((lookup_cert env cert).data.isSome = true ∧ (lookup_cert env cert).error = none) ∨
    ((lookup_cert env cert).data = none ∧ (lookup_cert env cert).error.isSome = true) := by
  simp only [lookup_cert]
  cases ha : env.playwrightAvailable with
  | false =>
    simp only [Bool.false_eq_true, if_false]
    exact directLoop_exclusive env _ _ rfl rfl
  | true =>
    simp only [if_true]
    cases hm : pyStrOpt (playwright_verify_flow env).2 with
    | some html =>
      simp only
      split
      · exact Or.inl ⟨rfl, rfl⟩
      · exact directLoop_exclusive env _ _ rfl rfl
    | none =>
      simp only
      exact directLoop_exclusive env _ _ rfl rfl

/-- C8 (amended): provided browser-session acquisition never fails —
always the case when Playwright is unavailable, since no session is ever
acquired — the exception-explicit lookup surfaces no exception: it
returns `ok` of the pure result, because every fetch, navigation and
extraction failure arising after the session is acquired is caught inside
the components and expressed through the result fields. -/
theorem lookup_never_raises_after_acquisition (env : Env) (cert : String)
    (h : env.playwrightAvailable = false ∨ env.launchRaises = false) :
    lookup_certE env cert = Except.ok (lookup_cert env cert) := by
  simp only [lookup_certE, lookup_cert, playwright_verify_flowE_eq env h]
  cases ha : env.playwrightAvailable with
  | false =>
    simp only [Bool.false_eq_true, if_false]
    exact directLoopE_eq env h _ _
  | true =>
    simp only [if_true]
    cases hm : pyStrOpt (playwright_verify_flow env).2 with
    | some html =>
      simp only
      split
      · rfl
      · exact directLoopE_eq env h _ _
    | none =>
      simp only
      exact directLoopE_eq env h _ _

/-- Environment where Playwright imported but the browser launch raises
(for example, browsers not installed — a condition the import check does
not rule out). -/
def launchFailEnv : Env :=
  { playwrightAvailable := true
    launchRaises := true
    http := fun _ => HttpOutcome.response 200 ""
    parse := fun _ => emptyDoc
    renderedNav := fun _ => RenderedOutcome.raised
    verify := VerifyOutcome.exhausted }

/-- C8 counterexample: with Playwright available but the browser launch
failing — launch, context and page creation sit outside the `try` blocks
and `lookup_cert` installs no handler — the exception-explicit lookup
propagates the exception to its caller instead of expressing the failure
through the result fields. -/
theorem lookup_launch_failure_raises_counterexample :
    lookup_certE launchFailEnv "12345" = Except.error "playwright.Error" ∧
    (lookup_certE launchFailEnv "12345").isOk = false :=
  ⟨rfl, rfl⟩

/-- C8 witness: at a concrete environment with no session-acquisition
failure the exception-explicit lookup returns `ok` of the pure result. -/
theorem lookup_never_raises_after_acquisition_witness :
    lookup_certE emptyEnv "12345" = Except.ok (lookup_cert emptyEnv "12345") :=
  lookup_never_raises_after_acquisition emptyEnv "12345" (Or.inl rfl)

/-- C7: for every identifier and fixed environment, the attempt log
follows the fixed strategy plan (guided portal first when available, then
passive and rendered per candidate, in order), every attempt before the
last found no data, and the lookup returns data exactly when its last
attempt found data — so it stops at the first success. -/
theorem lookup_fixed_order_short_circuit (env : Env) (cert : String) :
    List.Sublist ((lookup_cert env cert).attempts.map attemptKey) (attemptPlan env cert) ∧
    (env.playwrightAvailable = true →
      ((lookup_cert env cert).attempts.head?.map Attempt.via) = some "verify_portal") ∧
    noSuccess (lookup_cert env cert).attempts.dropLast ∧
    ((lookup_cert env cert).data.isSome = true ↔
      ∃ a, (lookup_cert env cert).attempts.getLast? = some a ∧
        a.data_found = some true) := by
  cases ha : env.playwrightAvailable with
  | false =>
    simp only [lookup_cert, attemptPlan, initResult, ha, Bool.false_eq_true, if_false,
      List.nil_append]
    obtain ⟨t, ht, hs⟩ := directLoop_attempts_sublist env (candidateUrls cert)
      { cert := cert, attempts := [], best_url := none, data := none, error := none }
    have hshape := directLoop_shape env (candidateUrls cert)
      { cert := cert, attempts := [], best_url := none, data := none, error := none }
      rfl (by intro a ha2; simp at ha2)
    refine ⟨?_, by simp, hshape.1, hshape.2⟩
    rw [ht]
    simpa using hs
  | true =>
    simp only [lookup_cert, attemptPlan, initResult, ha, if_true, List.nil_append]
    cases hm : pyStrOpt (playwright_verify_flow env).2 with
    | some html =>
      simp only
      split
      · rename_i hcond
        refine ⟨?_, by simp [verifyOkAttempt], ?_, ?_⟩
        · simp only [List.map_cons, List.map_nil, attemptKey, verifyOkAttempt]
          exact List.Sublist.cons₂ _ (List.nil_sublist _)
        · intro a ha2
          simp at ha2
        · simp only [List.nil_append, List.getLast?_singleton, Option.isSome_some, true_iff]
          exact ⟨_, rfl, by simp [verifyOkAttempt, hcond]⟩
      · rename_i hcond
        have hvn : noSuccess [verifyOkAttempt (playwright_verify_flow env).1
            (extract_key_values (env.parse html))] := by
          intro a ha2
          simp only [List.mem_singleton] at ha2
          subst ha2
          simp only [verifyOkAttempt, ne_eq, Option.some.injEq]
          intro hq
          exact hcond (by rw [hq])
        obtain ⟨t, ht, hs⟩ := directLoop_attempts_sublist env (candidateUrls cert)
          { cert := cert,
            attempts := [verifyOkAttempt (playwright_verify_flow env).1
              (extract_key_values (env.parse html))],
            best_url := none, data := none, error := none }
        have hshape := directLoop_shape env (candidateUrls cert)
          { cert := cert,
            attempts := [verifyOkAttempt (playwright_verify_flow env).1
              (extract_key_values (env.parse html))],
            best_url := none, data := none, error := none }
          rfl (by simpa using hvn)
        refine ⟨?_, ?_, hshape.1, hshape.2⟩
        · rw [ht]
          simp only [List.nil_append, List.singleton_append, List.map_cons, attemptKey,
            verifyOkAttempt]
          exact List.Sublist.cons₂ _ hs
        · intro _
          rw [ht]
          simp [verifyOkAttempt]
    | none =>
      simp only
      have hvn : noSuccess [verifyFailedAttempt (playwright_verify_flow env).1] := by
        intro a ha2
        simp only [List.mem_singleton] at ha2
        subst ha2
        simp [verifyFailedAttempt]
      obtain ⟨t, ht, hs⟩ := directLoop_attempts_sublist env (candidateUrls cert)
        { cert := cert,
          attempts := [verifyFailedAttempt (playwright_verify_flow env).1],
          best_url := none, data := none, error := none }
      have hshape := directLoop_shape env (candidateUrls cert)
        { cert := cert,
          attempts := [verifyFailedAttempt (playwright_verify_flow env).1],
          best_url := none, data := none, error := none }
        rfl (by simpa using hvn)
      refine ⟨?_, ?_, hshape.1, hshape.2⟩
      · rw [ht]
        simp only [List.nil_append, List.singleton_append, List.map_cons, attemptKey,
          verifyFailedAttempt]
        exact List.Sublist.cons₂ _ hs
      · intro _
        rw [ht]
        simp [verifyFailedAttempt]

/-- C10: the rendered fallback runs only for a candidate whose passive
fetch returned no document, and a candidate whose passive fetch returned a
document with empty extraction gets exactly one attempt record (status
`ok`, `data_found` false, the empty data attached) before the loop
advances to the next candidate. -/
theorem lookup_passive_miss_advances (env : Env) (cert : String) :
    (∀ a ∈ (lookup_cert env cert).attempts, a.via = "direct_playwright" →
      ∃ u, a.url = some u ∧ fetch_requests (env.http u) = none) ∧
    (∀ (url : String) (rest : List String) (acc : LookupResult) (html : String),
      fetch_requests (env.http url) = some html →
      (extract_key_values (env.parse html)).isEmpty = true →
      directLoop env (url :: rest) acc =
        directLoop env rest
          { acc with attempts := acc.attempts ++
              [{ via := "direct_requests", url := some url, status := "ok",
                 data_found := some false,
                 data := some (extract_key_values (env.parse html)) }] }) := by
  constructor
  · simp only [lookup_cert]
    cases ha : env.playwrightAvailable with
    | false =>
      simp only [Bool.false_eq_true, if_false]
      apply directLoop_pw_only_after_miss
      intro a ha2
      simp [initResult] at ha2
    | true =>
      simp only [if_true]
      cases hm : pyStrOpt (playwright_verify_flow env).2 with
      | some html =>
        simp only
        split
        · intro a ha2 hvia
          simp only [initResult, List.nil_append, List.mem_singleton] at ha2
          subst ha2
          simp [verifyOkAttempt] at hvia
        · apply directLoop_pw_only_after_miss
          intro a ha2 hvia
          simp only [initResult, List.nil_append, List.mem_singleton] at ha2
          subst ha2
          simp [verifyOkAttempt] at hvia
      | none =>
        simp only
        apply directLoop_pw_only_after_miss
        intro a ha2 hvia
        simp only [initResult, List.nil_append, List.mem_singleton] at ha2
        subst ha2
        simp [verifyFailedAttempt] at hvia
  · intro url rest acc html hf he
    simp only [directLoop, hf]
    rw [if_neg]
    · simp [reqOkAttempt, he]
    · simp [he]

/-- C2 (amended): when the guided navigator is unavailable and every
direct-URL candidate's passive fetch yields nothing, the lookup ends with
the error set and an attempt log of exactly eight records — two per
candidate, since the blocked rendered fallback is also recorded — all with
status `blocked_or_empty`. -/
theorem lookup_all_blocked_eight_attempts (env : Env) (cert : String)
    (h1 : env.playwrightAvailable = false)
    (h2 : ∀ u ∈ candidateUrls cert, fetch_requests (env.http u) = none) :
    (lookup_cert env cert).error = some errMsg ∧
    (lookup_cert env cert).attempts.length = 8 ∧
    ∀ a ∈ (lookup_cert env cert).attempts, a.status = "blocked_or_empty" := by
  have hrw : lookup_cert env cert =
      { initResult cert with
        attempts := (initResult cert).attempts ++
          (candidateUrls cert).flatMap (fun u => [blockedReqAttempt u, blockedPwAttempt u]),
        error := some errMsg } := by
    simp only [lookup_cert, h1, Bool.false_eq_true, if_false]
    exact directLoop_all_blocked env h1 (candidateUrls cert) (initResult cert) h2
  rw [hrw]
  refine ⟨rfl, ?_, ?_⟩
  · simp [candidateUrls, DIRECT_URL_PATTERNS, initResult]
  · intro a ha
    simp only [initResult, List.nil_append] at ha
    rw [List.mem_flatMap] at ha
    obtain ⟨u, _, hmem⟩ := ha
    simp only [List.mem_cons, List.mem_singleton, List.not_mem_nil, or_false] at hmem
    rcases hmem with h | h <;> subst h <;> rfl

/-- C2 witness: the amended conclusion holds at a concrete environment
where Playwright is unavailable and every response has an empty body. -/
theorem lookup_all_blocked_eight_attempts_witness :
    (lookup_cert emptyEnv "12345").error = some errMsg ∧
    (lookup_cert emptyEnv "12345").attempts.length = 8 :=
  ⟨(lookup_all_blocked_eight_attempts emptyEnv "12345" rfl (by decide)).1,
   (lookup_all_blocked_eight_attempts emptyEnv "12345" rfl (by decide)).2.1⟩

/-- C2 counterexample: in the all-blocked scenario the claim's premises
hold (navigator unavailable, every candidate's passive fetch empty, error
set, every status `blocked_or_empty`) yet the attempt log has eight
records, not three. -/
theorem lookup_all_blocked_not_three_attempts :
    emptyEnv.playwrightAvailable = false ∧
    ((candidateUrls "12345").all fun u => (fetch_requests (emptyEnv.http u)).isNone) = true ∧
    (lookup_cert emptyEnv "12345").error.isSome = true ∧
    ((lookup_cert emptyEnv "12345").attempts.all
      fun a => a.status == "blocked_or_empty") = true ∧
    (lookup_cert emptyEnv "12345").attempts.length ≠ 3 := by
  refine ⟨rfl, rfl, rfl, rfl, ?_⟩
  decide

lemma ite_some_none_eq_none_iff {α : Type} (c : Prop) [Decidable c] (x : α) :
    ((if c then some x else none) = none) ↔ ¬ c := by
  split <;> simp_all

lemma ite_none_some_eq_none_iff {α : Type} (c : Prop) [Decidable c] (x : α) :
    ((if c then none else some x) = none) ↔ c := by
  split <;> simp_all

lemma extract_isEmpty_iff (doc : Doc) :
    (extract_key_values doc).isEmpty = true ↔
      ((∀ s ∈ doc.scripts, isJsonBlock s = false) ∧
       (∀ t ∈ doc.metas, metaPairs t = []) ∧
       (∀ dl ∈ doc.dls, dlPairs dl = []) ∧
       (∀ tb ∈ doc.tables, tb.flatMap rowPairs = []) ∧
       doc.title = none ∧ doc.h1 = none ∧ doc.h2 = none ∧
       (∀ i ∈ doc.imgs, imgEntry i = none)) := by
  simp only [extract_key_values, ExtractedData.isEmpty, Bool.and_eq_true,
    Option.isNone_iff_eq_none, ite_some_none_eq_none_iff, ite_none_some_eq_none_iff,
    jsonFold_fst, Bool.false_or, List.any_eq_false, Bool.not_eq_true,
    List.isEmpty_iff, foldPairs_eq_nil_iff, List.filterMap_eq_nil_iff, and_true]
  tauto

/-- C5 (amended): the extraction result counts as non-empty
(`dataFound = true`, the Python `bool(data)`) iff at least one heuristic
created a field in the result — including fields whose content is empty,
such as a `title` element with empty text or a structured-data block
parsing to an empty array. -/
theorem extract_dataFound_iff_key_created (doc : Doc) :
    ((extract_key_values doc).isEmpty = false) ↔
      ((∃ s ∈ doc.scripts, isJsonBlock s = true) ∨
       (∃ t ∈ doc.metas, metaPairs t ≠ []) ∨
       (∃ dl ∈ doc.dls, dlPairs dl ≠ []) ∨
       (∃ tb ∈ doc.tables, tb.flatMap rowPairs ≠ []) ∨
       doc.title ≠ none ∨ doc.h1 ≠ none ∨ doc.h2 ≠ none ∨
       (∃ i ∈ doc.imgs, imgEntry i ≠ none)) := by
  cases hemp : (extract_key_values doc).isEmpty with
  | true =>
    simp only [Bool.true_eq_false, false_iff]
    have hall := (extract_isEmpty_iff doc).mp hemp
    push_neg
    refine ⟨?_, ?_, ?_, ?_, hall.2.2.2.2.1, hall.2.2.2.2.2.1, hall.2.2.2.2.2.2.1, ?_⟩
    · intro s hs
      simp [hall.1 s hs]
    · intro t ht
      simp [hall.2.1 t ht]
    · intro dl hdl
      simp [hall.2.2.1 dl hdl]
    · intro tb htb
      simp [hall.2.2.2.1 tb htb]
    · intro i hi
      simp [hall.2.2.2.2.2.2.2 i hi]
  | false =>
    simp only [true_iff]
    by_contra hnot
    push_neg at hnot
    have : (extract_key_values doc).isEmpty = true := by
      apply (extract_isEmpty_iff doc).mpr
      refine ⟨?_, ?_, ?_, ?_, hnot.2.2.2.2.1, hnot.2.2.2.2.2.1, hnot.2.2.2.2.2.2.1, ?_⟩
      · intro s hs
        have := hnot.1 s hs
        simpa using this
      · intro t ht
        have := hnot.2.1 t ht
        simpa using this
      · intro dl hdl
        have := hnot.2.2.1 dl hdl
        simpa using this
      · intro tb htb
        have := hnot.2.2.2.1 tb htb
        simpa using this
      · intro i hi
        have := hnot.2.2.2.2.2.2.2 i hi
        simpa using this
    rw [this] at hemp
    cases hemp

/-- C5 counterexample: a document whose only feature is a `title` element
with empty text makes `dataFound` true while no heuristic produced a field
with non-empty content — refuting the claim that `dataFound = true` holds
iff some heuristic produced a non-empty field. -/
theorem extract_dataFound_empty_field_counterexample :
    (extract_key_values emptyTitleDoc).isEmpty = false ∧
    hasNonemptyFieldSpec (extract_key_values emptyTitleDoc) = false ∧
    (extract_key_values { emptyDoc with scripts := [LdParse.jlist []] }).isEmpty = false ∧
    hasNonemptyFieldSpec
      (extract_key_values { emptyDoc with scripts := [LdParse.jlist []] }) = false := by
  exact ⟨rfl, rfl, rfl, rfl⟩

/-- C6: a label/value list whose label count differs from its value count
contributes nothing to the extraction (removing it changes nothing), a
table row without exactly two cells contributes nothing, and a two-cell
row with nonempty cells does contribute its label/value pair. -/
theorem extract_mismatched_contributes_nothing
    (doc : Doc) (pre post : List Dl) (dl : Dl)
    (tpre tpost : List (List (List String))) (rpre rpost : List (List String))
    (row : List String) (k v : String) :
    (dl.dts.length ≠ dl.dds.length →
      extract_key_values { doc with dls := pre ++ dl :: post } =
        extract_key_values { doc with dls := pre ++ post }) ∧
    (row.length ≠ 2 →
      extract_key_values { doc with tables := tpre ++ (rpre ++ row :: rpost) :: tpost } =
        extract_key_values { doc with tables := tpre ++ (rpre ++ rpost) :: tpost }) ∧
    (k ≠ "" → v ≠ "" →
      (extract_key_values { doc with tables := [[[k, v]]] }).table_fields =
        some [(k, v)]) := by
  refine ⟨?_, ?_, ?_⟩
  · intro h
    have hnil := dlPairs_eq_nil_of_length_ne dl h
    simp only [extract_key_values]
    rw [foldPairs_middle_nil dlPairs pre post dl hnil]
  · intro h
    have hnil := rowPairs_eq_nil_of_length_ne_two row h
    have hmid : (rpre ++ row :: rpost).flatMap rowPairs =
        (rpre ++ rpost).flatMap rowPairs := by
      simp [List.flatMap_append, hnil]
    simp only [extract_key_values]
    rw [foldPairs_middle_congr (fun tb => tb.flatMap rowPairs) tpre tpost _ _ hmid]
  · intro hk hv
    simp [extract_key_values, foldPairs, rowPairs, insKV, insertLW, hk, hv]

/-- C6 witness: the three parts at concrete inputs — a list with three
labels and two values contributes nothing, a three-cell row contributes
nothing, and a two-cell row yields its pair. -/
theorem extract_mismatched_contributes_nothing_witness :
    (extract_key_values { emptyDoc with
        dls := [{ dts := ["Series", "Issue", "Grade"], dds := ["X", "9.8"] }] } =
      extract_key_values emptyDoc) ∧
    (extract_key_values { emptyDoc with tables := [[["a", "b", "c"]]] } =
      extract_key_values { emptyDoc with tables := [[]] }) ∧
    (extract_key_values { emptyDoc with tables := [[["Grade", "9.8"]]] }).table_fields =
      some [("Grade", "9.8")] :=
  ⟨(extract_mismatched_contributes_nothing emptyDoc [] []
      { dts := ["Series", "Issue", "Grade"], dds := ["X", "9.8"] }
      [] [] [] [] ["a", "b", "c"] "Grade" "9.8").1 (by decide),
   (extract_mismatched_contributes_nothing emptyDoc [] []
      { dts := ["Series", "Issue", "Grade"], dds := ["X", "9.8"] }
      [] [] [] [] ["a", "b", "c"] "Grade" "9.8").2.1 (by decide),
   (extract_mismatched_contributes_nothing emptyDoc [] []
      { dts := ["Series", "Issue", "Grade"], dds := ["X", "9.8"] }
      [] [] [] [] ["a", "b", "c"] "Grade" "9.8").2.2 (by decide) (by decide)⟩

/-- C3 counterexample: a document whose full rendered text contains the
known "not found" phrase as a case-insensitive substring yields an
extraction whose `notices` field is absent — no canonical notice string is
appended. -/
theorem extract_not_found_no_notice_counterexample :
    containsCI "not found" notFoundDoc.fullText = true ∧
    (extract_key_values notFoundDoc).notices = none :=
  ⟨rfl, rfl⟩

/-- C3 (amended): the extractor performs no "not found" phrase scan and
never emits a notice: the `notices` field is absent from every extraction
result, whatever the rendered text contains. -/
theorem extract_never_produces_notices (doc : Doc) :
    (extract_key_values doc).notices = none :=
  rfl

/-- Whether an action is part of a readiness heuristic: a title poll or a
bounded wait for a detail-page marker selector. -/
def isReadinessPoll (a : BrowserAction) : Bool :=
  match a with
  | .pollTitle _ => true
  | .waitForSelector _ _ => true
  | _ => false

/-- Whether an action is a fixed settle delay. -/
def isSettleWait (a : BrowserAction) : Bool :=
  match a with
  | .waitForTimeout _ => true
  | _ => false

/-- C4 counterexample: on a concrete URL the rendered fetcher performs no
title poll and no marker wait at all — only the single fixed settle delay
— refuting the claimed title-polling readiness heuristic. -/
theorem rendered_fetch_no_title_poll_counterexample :
    ((fetch_playwright_direct_trace true
        "https://www.cgccomics.com/certlookup/12345/" false).any isReadinessPoll) = false ∧
    ((fetch_playwright_direct_trace true
        "https://www.cgccomics.com/certlookup/12345/" false).count
      (BrowserAction.waitForTimeout 600)) = 1 :=
  ⟨rfl, rfl⟩

/-- C4 (amended): for every URL the rendered fetcher navigates with the
DOM-ready milestone under the 30-second outer bound, applies exactly one
fixed 600 ms settle delay before capturing content, performs no title
polling and no detail-page-marker wait, and on a navigation exception
captures nothing and just closes the session. -/
theorem rendered_fetch_fixed_settle_only (url : String) :
    fetch_playwright_direct_trace true url false =
      [BrowserAction.launch, BrowserAction.goto url "domcontentloaded" TIMEOUT_MS,
       BrowserAction.waitForTimeout 600, BrowserAction.captureContent,
       BrowserAction.close] ∧
    ((fetch_playwright_direct_trace true url false).filter isSettleWait) =
      [BrowserAction.waitForTimeout 600] ∧
    ((fetch_playwright_direct_trace true url false).any isReadinessPoll) = false ∧
    fetch_playwright_direct_trace true url true =
      [BrowserAction.launch, BrowserAction.goto url "domcontentloaded" TIMEOUT_MS,
       BrowserAction.close] :=
  ⟨rfl, rfl, rfl, rfl⟩

/-- C9: on every exit path of the rendered fetcher and of the guided
portal flow — success, exhaustion, navigation exception — the browser
session ends closed, and no session is opened at all when Playwright is
unavailable. -/
theorem browser_session_released_every_path (url : String) (navRaises : Bool)
    (out : VerifyOutcome) :
    sessionReleased (fetch_playwright_direct_trace true url navRaises) = true ∧
    sessionReleased (playwright_verify_flow_trace true out) = true ∧
    fetch_playwright_direct_trace false url navRaises = [] ∧
    playwright_verify_flow_trace false out = [] := by
  cases navRaises <;> cases out <;> exact ⟨rfl, rfl, rfl, rfl⟩

/-- Environment where the guided portal flow reaches a detail page whose
content parses to an empty document. -/
def pwEnv : Env :=
  { playwrightAvailable := true
    launchRaises := false
    http := fun _ => HttpOutcome.response 200 ""
    parse := fun _ => emptyDoc
    renderedNav := fun _ => RenderedOutcome.raised
    verify := VerifyOutcome.found "https://www.cgccomics.com/certlookup/777/" "<html></html>" }

/-- C7 witness: at a concrete environment with the guided navigator
available, the attempt log starts with the verify-portal attempt and
follows the fixed plan. -/
theorem lookup_fixed_order_short_circuit_witness :
    ((lookup_cert pwEnv "777").attempts.head?.map Attempt.via) = some "verify_portal" ∧
    List.Sublist ((lookup_cert pwEnv "777").attempts.map attemptKey)
      (attemptPlan pwEnv "777") :=
  ⟨(lookup_fixed_order_short_circuit pwEnv "777").2.1 rfl,
   (lookup_fixed_order_short_circuit pwEnv "777").1⟩

/-- C5 witness: the amended equivalence applied at the concrete document
with an empty-text title shows its extraction counts as non-empty. -/
theorem extract_dataFound_iff_key_created_witness :
    (extract_key_values emptyTitleDoc).isEmpty = false :=
  (extract_dataFound_iff_key_created emptyTitleDoc).mpr (by decide)

/-- C10 witness: at a concrete environment whose passive fetch returns a
blank page, one loop step appends exactly the single ok/no-data record and
advances to the next candidate. -/
theorem lookup_passive_miss_advances_witness :
    directLoop blankPageEnv ["u1", "u2"] (initResult "9") =
      directLoop blankPageEnv ["u2"]
        { initResult "9" with attempts := (initResult "9").attempts ++
            [{ via := "direct_requests", url := some "u1", status := "ok",
               data_found := some false,
               data := some (extract_key_values (blankPageEnv.parse "<html></html>")) }] } :=
  (lookup_passive_miss_advances blankPageEnv "9").2 "u1" ["u2"] (initResult "9")
    "<html></html>" (by decide) (by decide)

end CgcLookup
